import Mathlib

/-!
Shallow embedding of `QualitySystemChocolate.py`: a quality-control pipeline
for a chocolate production line.  Python classes become Lean structures, the
inheritance hierarchy `Chocolate` / `MoldedChocolate` / `PackagedChocolate`
becomes a variant tag, mutation becomes explicit state passing, `random`
calls become explicit entropy parameters, and the `ValueError` raised by
`inspect_chocolate` becomes an `Except.error` result.  Python `float`
arithmetic in the report (a single division) is modelled exactly over `ℚ`.
-/

namespace QualitySystem

/-- The `DefectType` enumeration of the source. -/
inductive DefectType where
  | bubbles
  | breakage
  | incorrect_shape
  | stains
  | missing_piece
  | damaged_packaging
deriving DecidableEq, Repr

/-- The `.value` string of each `DefectType` member. -/
def DefectType.value : DefectType → String
  | .bubbles => "air_bubbles"
  | .breakage => "breakage"
  | .incorrect_shape => "incorrect_shape"
  | .stains => "stains"
  | .missing_piece => "missing_piece"
  | .damaged_packaging => "damaged_packaging"

/-- The `QualityStatus` enumeration of the source. -/
inductive QualityStatus where
  | approved
  | rejected
  | pending
deriving DecidableEq, Repr

/-- The `.value` string of each `QualityStatus` member. -/
def QualityStatus.value : QualityStatus → String
  | .approved => "approved"
  | .rejected => "rejected"
  | .pending => "pending"

/-- Which Python class a product instance belongs to: the base class
`Chocolate` or one of its subclasses `MoldedChocolate` / `PackagedChocolate`. -/
inductive ChocolateVariant where
  | base
  | molded
  | packaged
deriving DecidableEq, Repr

/-- The Python `__class__.__name__` of a product of the given variant. -/
def className : ChocolateVariant → String
  | .base => "Chocolate"
  | .molded => "MoldedChocolate"
  | .packaged => "PackagedChocolate"

/-- A product instance: the fields of the Python class `Chocolate`
(`_batch_id`, `_production_date`, `_defects`, `_quality_status`) together
with the variant tag replacing the subclass.  The variant-specific
attribute (`_mold_type` / `_packaging_type`) is retained for record keeping
and plays no role in any logic, mirroring the source.  Timestamps are
modelled as `Nat`. -/
structure Chocolate where
  batch_id : String
  production_date : Nat
  variant : ChocolateVariant
  variant_attr : String
  defects : List DefectType
  quality_status : QualityStatus
deriving DecidableEq, Repr

/-- `Chocolate.add_defect`: append the defect only when it is not already
in the list (`if defect not in self._defects: self._defects.append(defect)`). -/
def add_defect (c : Chocolate) (defect : DefectType) : Chocolate :=
  if defect ∈ c.defects then c
  else { c with defects := c.defects ++ [defect] }

/-- The status computed by `evaluate_quality` for a given variant from a
given defect list.  Base `Chocolate`: approved iff no defects.
`MoldedChocolate`: rejected iff bubbles, breakage or incorrect shape is
present.  `PackagedChocolate`: rejected iff breakage, damaged packaging or
a missing piece is present.  Transcribed from the three `evaluate_quality`
method bodies. -/
def statusFor (variant : ChocolateVariant) (defects : List DefectType) : QualityStatus :=
  match variant with
  | .base =>
      if defects = [] then QualityStatus.approved else QualityStatus.rejected
  | .molded =>
      if DefectType.bubbles ∈ defects ∨ DefectType.breakage ∈ defects ∨
          DefectType.incorrect_shape ∈ defects
      then QualityStatus.rejected else QualityStatus.approved
  | .packaged =>
      if DefectType.breakage ∈ defects ∨ DefectType.damaged_packaging ∈ defects ∨
          DefectType.missing_piece ∈ defects
      then QualityStatus.rejected else QualityStatus.approved

/-- `evaluate_quality` (polymorphic over the variant): computes the status
from the current defect list, stores it in `_quality_status` and returns
it.  Returned here as the pair (returned status, updated product). -/
def evaluate_quality (c : Chocolate) : QualityStatus × Chocolate :=
  let st := statusFor c.variant c.defects
  (st, { c with quality_status := st })

/-- The `QualitySensor` capability contract: `detect_defects(chocolate)`
returns a list of defects.  Sensors do not mutate the product, so they are
plain functions. -/
abbrev Sensor : Type := Chocolate → List DefectType

/-- Entropy consumed by the `random` calls inside `VisualSensor`: the
values returned by `random.randint` (one per process branch) and the
successive picks made by `random.choices`. -/
structure RandomState where
  moldCount : Nat
  moldPick : Nat → Nat
  packCount : Nat
  packPick : Nat → Nat

/-- The `possible_defects` candidate list of `VisualSensor._analyze_molding`. -/
def moldingPossible : List DefectType :=
  [DefectType.bubbles, DefectType.breakage, DefectType.incorrect_shape, DefectType.stains]

/-- The `possible_defects` candidate list of `VisualSensor._analyze_packaging`. -/
def packagingPossible : List DefectType :=
  [DefectType.breakage, DefectType.damaged_packaging, DefectType.missing_piece]

/-- `random.choices(possible, k)`: `k` independent draws from the candidate
list, each draw given by the entropy function reduced modulo the list
length. -/
def randomChoices (possible : List DefectType) (k : Nat) (pick : Nat → Nat) :
    List DefectType :=
  (List.range k).map fun i => possible.getD (pick i % possible.length) DefectType.bubbles

/-- `VisualSensor._analyze_molding`: `random.choices` over the molding
candidates with `k = random.randint(0, 2)` (hence `moldCount % 3`). -/
def analyze_molding (r : RandomState) : List DefectType :=
  randomChoices moldingPossible (r.moldCount % 3) r.moldPick

/-- `VisualSensor._analyze_packaging`: `random.choices` over the packaging
candidates with `k = random.randint(0, 1)` (hence `packCount % 2`). -/
def analyze_packaging (r : RandomState) : List DefectType :=
  randomChoices packagingPossible (r.packCount % 2) r.packPick

/-- `VisualSensor.detect_defects`: starts from an empty list, extends it by
the molding analysis when the product is a `MoldedChocolate`, by the
packaging analysis when it is a `PackagedChocolate`, and leaves it empty
otherwise. -/
def VisualSensor.detect_defects (r : RandomState) : Sensor := fun chocolate =>
  let detected : List DefectType := []
  match chocolate.variant with
  | .molded => detected ++ analyze_molding r
  | .packaged => detected ++ analyze_packaging r
  | .base => detected

/-- One entry of `QualityControlSystem._results`: the dict built by
`_register_result`, with `defects` holding the `.value` strings of the
defects found in that call and `result` the `.value` of the returned
status. -/
structure InspectionRecord where
  batch_id : String
  date : Nat
  process : String
  defects : List String
  result : String
  chocolate_type : String
deriving DecidableEq, Repr

/-- `QualityControlSystem`: the `_sensors` dict is modelled as a map from
process name to an optional sensor (overwrite-on-reregister semantics kept
by the update in `register_sensor`), `_results` as the record list. -/
structure QualityControlSystem where
  sensors : String → Option Sensor
  results : List InspectionRecord

/-- `QualityControlSystem.register_sensor`: `self._sensors[process] = sensor`. -/
def register_sensor (sys : QualityControlSystem) (process : String) (sensor : Sensor) :
    QualityControlSystem :=
  { sys with sensors := fun q => if q = process then some sensor else sys.sensors q }

/-- The `for defect in defects: chocolate.add_defect(defect)` loop of
`inspect_chocolate`. -/
def applyDefects (c : Chocolate) (ds : List DefectType) : Chocolate :=
  ds.foldl add_defect c

/-- `QualityControlSystem._register_result`: appends the record dict to
`self._results`.  `datetime.now()` is the explicit `now` argument. -/
def register_result (sys : QualityControlSystem) (chocolate : Chocolate)
    (defects : List DefectType) (result : QualityStatus) (process : String)
    (now : Nat) : QualityControlSystem :=
  { sys with
    results := sys.results ++
      [{ batch_id := chocolate.batch_id
         date := now
         process := process
         defects := defects.map DefectType.value
         result := result.value
         chocolate_type := className chocolate.variant }] }

/-- `QualityControlSystem.inspect_chocolate`: raises
`ValueError("No sensor registered for process: ...")` when the process has
no sensor; otherwise queries the sensor, merges the returned defects into
the product, evaluates its quality, registers the result and returns the
status.  The Python mutations of the product and of the system are returned
explicitly alongside the `Except` outcome: on the error path both are the
unchanged inputs, exactly as in the source where the raise happens before
any mutation. -/
def inspect_chocolate (sys : QualityControlSystem) (chocolate : Chocolate)
    (process : String) (now : Nat) :
    Except String QualityStatus × Chocolate × QualityControlSystem :=
  match sys.sensors process with
  | none =>
      (Except.error ("No sensor registered for process: " ++ process), chocolate, sys)
  | some sensor =>
      let defects := sensor chocolate
      let c1 := applyDefects chocolate defects
      let out := evaluate_quality c1
      (Except.ok out.1, out.2, register_result sys out.2 defects out.1 process now)

/-- One numbered line block of `show_inspections` (enumeration starts at 1;
`strftime` date formatting is abstracted to `toString` on the timestamp). -/
def historyLine (i : Nat) (r : InspectionRecord) : String :=
  toString i ++ ". Batch: " ++ r.batch_id ++ " | "
    ++ "Process: " ++ r.process ++ " | "
    ++ "Result: " ++ r.result ++ "\n"
    ++ (if r.defects = [] then ""
        else "   Defects: " ++ String.intercalate ", " r.defects ++ "\n")
    ++ "   Date: " ++ toString r.date ++ "\n"
    ++ String.mk (List.replicate 50 '-') ++ "\n"

/-- `QualityControlSystem.show_inspections`: the chronological history
report, a pure function of the ledger. -/
def show_inspections (sys : QualityControlSystem) : String :=
  if sys.results = [] then "No inspections registered."
  else
    (List.range sys.results.length).foldl
      (fun acc i => acc ++ historyLine (i + 1) (sys.results.getD i
        { batch_id := "", date := 0, process := "", defects := [], result := "",
          chocolate_type := "" }))
      ("INSPECTION HISTORY\n" ++ String.mk (List.replicate 50 '=') ++ "\n")

/-- Runs a sequence of `inspect_chocolate` calls (each with its own product,
process name and clock reading), threading the control system state. -/
def runInspections (sys : QualityControlSystem) :
    List (Chocolate × String × Nat) → QualityControlSystem
  | [] => sys
  | call :: rest =>
      runInspections (inspect_chocolate sys call.1 call.2.1 call.2.2).2.2 rest

/-- Every call in the list targets a process that has a registered sensor
(the success condition of `inspect_chocolate`; sensors are only changed by
`register_sensor`, never by `inspect_chocolate`). -/
def allRegistered (sys : QualityControlSystem)
    (calls : List (Chocolate × String × Nat)) : Bool :=
  calls.all fun call => (sys.sensors call.2.1).isSome

/-!
Aliasing model for the copy-on-read accessor.  The pure structures above
erase Python's reference semantics, so the `defects` property getter
(`return self._defects.copy()`) is modelled once more against an explicit
heap of list cells: a product holds the address of its internal defect
list, and the getter allocates a fresh cell holding an element-by-element
copy.  Mutation of the returned list is then a `write` to the returned
address.
-/

/-- A heap of Python list objects: contents per address plus the next free
address. -/
structure Heap where
  cells : Nat → List DefectType
  next : Nat

/-- Reads the list stored at an address. -/
def Heap.read (h : Heap) (a : Nat) : List DefectType := h.cells a

/-- In-place mutation of the list object at an address. -/
def Heap.write (h : Heap) (a : Nat) (v : List DefectType) : Heap :=
  { h with cells := fun b => if b = a then v else h.cells b }

/-- Allocates a fresh list object, returning its (fresh) address. -/
def Heap.alloc (h : Heap) (v : List DefectType) : Nat × Heap :=
  (h.next,
   { cells := fun b => if b = h.next then v else h.cells b, next := h.next + 1 })

/-- `list.copy()`: an element-by-element copy producing a new list value. -/
def listCopy : List DefectType → List DefectType
  | [] => []
  | d :: ds => d :: listCopy ds

/-- A product in the aliasing model: same fields as `Chocolate`, but the
internal `_defects` list lives in the heap and the product stores only its
address. -/
structure ChocolateRef where
  batch_id : String
  production_date : Nat
  variant : ChocolateVariant
  variant_attr : String
  defectsAddr : Nat
  quality_status : QualityStatus

/-- A product reference is well formed in a heap when its defect-list
address has been allocated. -/
def ChocolateRef.wf (c : ChocolateRef) (h : Heap) : Prop := c.defectsAddr < h.next

/-- The `defects` property getter in the aliasing model: allocate a fresh
list object holding a copy of the internal defect list and hand its address
to the caller (`return self._defects.copy()`). -/
def defectsGetter (h : Heap) (c : ChocolateRef) : Nat × Heap :=
  h.alloc (listCopy (h.read c.defectsAddr))

/-- `evaluate_quality` in the aliasing model: the returned status, computed
by the variant rule from the internal defect list read out of the heap. -/
def evaluateRef (h : Heap) (c : ChocolateRef) : QualityStatus :=
  statusFor c.variant (h.read c.defectsAddr)

/-! Helper lemmas shared by the claim theorems. -/

theorem add_defect_batch_id (c : Chocolate) (d : DefectType) :
    (add_defect c d).batch_id = c.batch_id := by
  unfold add_defect; split <;> rfl

theorem add_defect_variant (c : Chocolate) (d : DefectType) :
    (add_defect c d).variant = c.variant := by
  unfold add_defect; split <;> rfl

theorem applyDefects_batch_id (ds : List DefectType) :
    ∀ c : Chocolate, (applyDefects c ds).batch_id = c.batch_id := by
  induction ds with
  | nil => intro c; rfl
  | cons d ds ih =>
      intro c
      show (applyDefects (add_defect c d) ds).batch_id = c.batch_id
      rw [ih, add_defect_batch_id]

theorem applyDefects_variant (ds : List DefectType) :
    ∀ c : Chocolate, (applyDefects c ds).variant = c.variant := by
  induction ds with
  | nil => intro c; rfl
  | cons d ds ih =>
      intro c
      show (applyDefects (add_defect c d) ds).variant = c.variant
      rw [ih, add_defect_variant]

theorem listCopy_eq (xs : List DefectType) : listCopy xs = xs := by
  induction xs with
  | nil => rfl
  | cons d ds ih => simp [listCopy, ih]

/-- C1: for every `MoldedChocolate` and every defect set it carries,
`evaluate_quality` returns rejected iff the set contains one of bubbles,
breakage or incorrect shape, and approved otherwise; stains alone yields
approved. -/
theorem molded_evaluate_quality_correct (c : Chocolate)
    (h : c.variant = ChocolateVariant.molded) :
    ((evaluate_quality c).1 = QualityStatus.rejected ↔
      (DefectType.bubbles ∈ c.defects ∨ DefectType.breakage ∈ c.defects ∨
        DefectType.incorrect_shape ∈ c.defects)) ∧
    ((evaluate_quality c).1 = QualityStatus.approved ↔
      ¬(DefectType.bubbles ∈ c.defects ∨ DefectType.breakage ∈ c.defects ∨
        DefectType.incorrect_shape ∈ c.defects)) := by
  simp only [evaluate_quality, statusFor, h]
  split <;> simp_all

/-- Witness for C1 at a concrete input: a molded chocolate whose only
defect is stains is approved. -/
theorem molded_evaluate_quality_correct_witness :
    (Chocolate.mk "M1" 0 ChocolateVariant.molded "heart" [DefectType.stains]
        QualityStatus.pending).variant = ChocolateVariant.molded ∧
    (evaluate_quality (Chocolate.mk "M1" 0 ChocolateVariant.molded "heart"
        [DefectType.stains] QualityStatus.pending)).1 = QualityStatus.approved :=
  ⟨rfl,
    (molded_evaluate_quality_correct
      (Chocolate.mk "M1" 0 ChocolateVariant.molded "heart" [DefectType.stains]
        QualityStatus.pending) rfl).2.mpr (by decide)⟩

/-- C2: for every `PackagedChocolate` and every defect set it carries,
`evaluate_quality` returns rejected iff the set contains one of breakage,
damaged packaging or missing piece, and approved otherwise. -/
theorem packaged_evaluate_quality_correct (c : Chocolate)
    (h : c.variant = ChocolateVariant.packaged) :
    ((evaluate_quality c).1 = QualityStatus.rejected ↔
      (DefectType.breakage ∈ c.defects ∨ DefectType.damaged_packaging ∈ c.defects ∨
        DefectType.missing_piece ∈ c.defects)) ∧
    ((evaluate_quality c).1 = QualityStatus.approved ↔
      ¬(DefectType.breakage ∈ c.defects ∨ DefectType.damaged_packaging ∈ c.defects ∨
        DefectType.missing_piece ∈ c.defects)) := by
  simp only [evaluate_quality, statusFor, h]
  split <;> simp_all

/-- Witness for C2 at a concrete input: a packaged chocolate with a missing
piece is rejected. -/
theorem packaged_evaluate_quality_correct_witness :
    (Chocolate.mk "P1" 0 ChocolateVariant.packaged "gift_box"
        [DefectType.missing_piece] QualityStatus.pending).variant =
      ChocolateVariant.packaged ∧
    (evaluate_quality (Chocolate.mk "P1" 0 ChocolateVariant.packaged "gift_box"
        [DefectType.missing_piece] QualityStatus.pending)).1 = QualityStatus.rejected :=
  ⟨rfl,
    (packaged_evaluate_quality_correct
      (Chocolate.mk "P1" 0 ChocolateVariant.packaged "gift_box"
        [DefectType.missing_piece] QualityStatus.pending) rfl).1.mpr (by decide)⟩

/-- C7: a base-variant product is approved iff its defect set is empty
(rejected otherwise), and for every variant `evaluate_quality` totally
returns approved or rejected, never pending. -/
theorem evaluate_quality_base_and_total (c : Chocolate) :
    (c.variant = ChocolateVariant.base →
      ((evaluate_quality c).1 = QualityStatus.approved ↔ c.defects = []) ∧
      ((evaluate_quality c).1 = QualityStatus.rejected ↔ c.defects ≠ [])) ∧
    ((evaluate_quality c).1 = QualityStatus.approved ∨
      (evaluate_quality c).1 = QualityStatus.rejected) := by
  constructor
  · intro h
    simp only [evaluate_quality, statusFor, h]
    constructor <;> (split <;> simp_all)
  · simp only [evaluate_quality, statusFor]
    cases c.variant <;> (simp only []; split <;> simp)

/-- Witness for C7 at a concrete input: a fresh base chocolate with no
defects is approved. -/
theorem evaluate_quality_base_and_total_witness :
    (Chocolate.mk "B1" 0 ChocolateVariant.base "" [] QualityStatus.pending).variant =
      ChocolateVariant.base ∧
    (evaluate_quality (Chocolate.mk "B1" 0 ChocolateVariant.base "" []
        QualityStatus.pending)).1 = QualityStatus.approved :=
  ⟨rfl,
    ((evaluate_quality_base_and_total
      (Chocolate.mk "B1" 0 ChocolateVariant.base "" [] QualityStatus.pending)).1
      rfl).1.mpr rfl⟩

/-- C8: `add_defect` is an idempotent union-insert that always succeeds:
re-adding a present kind changes nothing (so twice gives the same defect
set, hence the same size, as once), an absent kind is appended, and no call
removes an existing defect. -/
theorem add_defect_union_insert (c : Chocolate) (d e : DefectType) :
    add_defect (add_defect c d) d = add_defect c d ∧
    (d ∉ c.defects → (add_defect c d).defects = c.defects ++ [d]) ∧
    (d ∈ c.defects → add_defect c d = c) ∧
    d ∈ (add_defect c d).defects ∧
    (e ∈ c.defects → e ∈ (add_defect c d).defects) := by
  by_cases h : d ∈ c.defects <;>
    simp_all [add_defect]

/-- Witness for C8 at a concrete input: adding breakage twice to a
chocolate that has stains equals adding it once, and appends it after the
existing defect. -/
theorem add_defect_union_insert_witness :
    DefectType.breakage ∉ [DefectType.stains] ∧
    DefectType.stains ∈ [DefectType.stains] ∧
    add_defect
        (add_defect (Chocolate.mk "B2" 0 ChocolateVariant.base "" [DefectType.stains]
          QualityStatus.pending) DefectType.breakage) DefectType.breakage =
      add_defect (Chocolate.mk "B2" 0 ChocolateVariant.base "" [DefectType.stains]
          QualityStatus.pending) DefectType.breakage ∧
    (add_defect (Chocolate.mk "B2" 0 ChocolateVariant.base "" [DefectType.stains]
        QualityStatus.pending) DefectType.breakage).defects =
      [DefectType.stains] ++ [DefectType.breakage] :=
  ⟨by decide, by decide,
    (add_defect_union_insert (Chocolate.mk "B2" 0 ChocolateVariant.base ""
      [DefectType.stains] QualityStatus.pending) DefectType.breakage
      DefectType.stains).1,
    (add_defect_union_insert (Chocolate.mk "B2" 0 ChocolateVariant.base ""
      [DefectType.stains] QualityStatus.pending) DefectType.breakage
      DefectType.stains).2.1 (by decide)⟩

/-- C3: inspecting through a process with no registered sensor fails with
the unregistered-process error, and the product and the whole control
system (ledger included) come back exactly as they went in. -/
theorem inspect_unregistered_error (sys : QualityControlSystem) (c : Chocolate)
    (p : String) (now : Nat) (h : sys.sensors p = none) :
    inspect_chocolate sys c p now =
      (Except.error ("No sensor registered for process: " ++ p), c, sys) := by
  simp [inspect_chocolate, h]

/-- Witness for C3 at a concrete input: a system with no sensors rejects an
inspection request for "molding" and returns its state unchanged. -/
theorem inspect_unregistered_error_witness :
    (QualityControlSystem.mk (fun _ => none) []).sensors "molding" = none ∧
    inspect_chocolate (QualityControlSystem.mk (fun _ => none) [])
        (Chocolate.mk "B3" 0 ChocolateVariant.molded "heart" [] QualityStatus.pending)
        "molding" 0 =
      (Except.error ("No sensor registered for process: " ++ "molding"),
        Chocolate.mk "B3" 0 ChocolateVariant.molded "heart" [] QualityStatus.pending,
        QualityControlSystem.mk (fun _ => none) []) :=
  ⟨rfl,
    inspect_unregistered_error (QualityControlSystem.mk (fun _ => none) [])
      (Chocolate.mk "B3" 0 ChocolateVariant.molded "heart" [] QualityStatus.pending)
      "molding" 0 rfl⟩

theorem inspect_sensors_eq (sys : QualityControlSystem) (c : Chocolate)
    (p : String) (now : Nat) :
    ((inspect_chocolate sys c p now).2.2).sensors = sys.sensors := by
  unfold inspect_chocolate
  cases h : sys.sensors p <;> simp [register_result]

theorem inspect_results_of_some (sys : QualityControlSystem) (c : Chocolate)
    (p : String) (now : Nat) (s : Sensor) (h : sys.sensors p = some s) :
    ((inspect_chocolate sys c p now).2.2).results =
      sys.results ++
        [{ batch_id := c.batch_id
           date := now
           process := p
           defects := (s c).map DefectType.value
           result := ((evaluate_quality (applyDefects c (s c))).1).value
           chocolate_type := className c.variant }] := by
  simp only [inspect_chocolate, h, register_result, evaluate_quality]
  simp [applyDefects_batch_id, applyDefects_variant]

theorem runInspections_length (calls : List (Chocolate × String × Nat)) :
    ∀ sys : QualityControlSystem, allRegistered sys calls = true →
      (runInspections sys calls).results.length =
        sys.results.length + calls.length := by
  induction calls with
  | nil => intro sys _; simp [runInspections]
  | cons call rest ih =>
      intro sys hall
      simp only [allRegistered, List.all_cons, Bool.and_eq_true] at hall
      obtain ⟨s, hs⟩ := Option.isSome_iff_exists.mp hall.1
      have hrest : allRegistered ((inspect_chocolate sys call.1 call.2.1 call.2.2).2.2)
          rest = true := by
        simpa [allRegistered, inspect_sensors_eq] using hall.2
      have hstep := inspect_results_of_some sys call.1 call.2.1 call.2.2 s hs
      simp only [runInspections]
      rw [ih _ hrest, hstep]
      simp [Nat.add_comm, Nat.add_assoc, Nat.add_left_comm]

/-- C4: a successful inspection appends exactly one ledger record and keeps
every existing record in place; a failed one and `register_sensor` leave
the ledger untouched; hence a run of N successful inspections starting from
an empty ledger ends with exactly N records. -/
theorem ledger_append_only (sys : QualityControlSystem) (c : Chocolate) (p : String)
    (now : Nat) (s : Sensor) (calls : List (Chocolate × String × Nat)) :
    (sys.sensors p = some s →
      ((inspect_chocolate sys c p now).2.2).results.length = sys.results.length + 1 ∧
      ((inspect_chocolate sys c p now).2.2).results.take sys.results.length =
        sys.results) ∧
    (sys.sensors p = none → (inspect_chocolate sys c p now).2.2 = sys) ∧
    (register_sensor sys p s).results = sys.results ∧
    (sys.results = [] → allRegistered sys calls = true →
      (runInspections sys calls).results.length = calls.length) := by
  refine ⟨fun h => ?_, fun h => ?_, rfl, fun hnil hall => ?_⟩
  · rw [inspect_results_of_some sys c p now s h]
    simp
  · simp [inspect_chocolate, h]
  · rw [runInspections_length calls sys hall, hnil]
    simp

/-- Witness for C4 at a concrete input: from an empty ledger, two
inspections through a registered always-clean sensor leave exactly two
records. -/
theorem ledger_append_only_witness :
    (QualityControlSystem.mk
        (fun q => if q = "m" then some (fun _ => ([] : List DefectType)) else none)
        []).sensors "m" = some (fun _ => ([] : List DefectType)) ∧
    (QualityControlSystem.mk
        (fun q => if q = "m" then some (fun _ => ([] : List DefectType)) else none)
        []).results = [] ∧
    allRegistered
      (QualityControlSystem.mk
        (fun q => if q = "m" then some (fun _ => ([] : List DefectType)) else none) [])
      [(Chocolate.mk "B4" 0 ChocolateVariant.molded "heart" [] QualityStatus.pending,
         "m", 0),
       (Chocolate.mk "B5" 0 ChocolateVariant.packaged "gift_box" []
         QualityStatus.pending, "m", 1)] = true ∧
    (runInspections
      (QualityControlSystem.mk
        (fun q => if q = "m" then some (fun _ => ([] : List DefectType)) else none) [])
      [(Chocolate.mk "B4" 0 ChocolateVariant.molded "heart" [] QualityStatus.pending,
         "m", 0),
       (Chocolate.mk "B5" 0 ChocolateVariant.packaged "gift_box" []
         QualityStatus.pending, "m", 1)]).results.length = 2 :=
  ⟨rfl, rfl, rfl,
    (ledger_append_only
      (QualityControlSystem.mk
        (fun q => if q = "m" then some (fun _ => ([] : List DefectType)) else none) [])
      (Chocolate.mk "B4" 0 ChocolateVariant.molded "heart" [] QualityStatus.pending)
      "m" 0 (fun _ => ([] : List DefectType))
      [(Chocolate.mk "B4" 0 ChocolateVariant.molded "heart" [] QualityStatus.pending,
         "m", 0),
       (Chocolate.mk "B5" 0 ChocolateVariant.packaged "gift_box" []
         QualityStatus.pending, "m", 1)]).2.2.2 rfl rfl⟩

/-- C6: a successful inspection returns the status evaluated after merging,
and appends the one record holding the product's batch id, the clock
reading, the process name, exactly the defect list the sensor returned in
this call (duplicates retained, not the accumulated set), that status's
string, and the product's class name. -/
theorem inspect_record_contents (sys : QualityControlSystem) (c : Chocolate)
    (p : String) (now : Nat) (s : Sensor) (h : sys.sensors p = some s) :
    (inspect_chocolate sys c p now).1 =
      Except.ok (evaluate_quality (applyDefects c (s c))).1 ∧
    ((inspect_chocolate sys c p now).2.2).results =
      sys.results ++
        [{ batch_id := c.batch_id
           date := now
           process := p
           defects := (s c).map DefectType.value
           result := ((evaluate_quality (applyDefects c (s c))).1).value
           chocolate_type := className c.variant }] := by
  refine ⟨?_, inspect_results_of_some sys c p now s h⟩
  simp [inspect_chocolate, h]

/-- A sensor that reports breakage twice in one call, for the C6 witness. -/
def doubleBreakSensor : Sensor := fun _ => [DefectType.breakage, DefectType.breakage]

/-- A control system with `doubleBreakSensor` registered for process "m",
for the C6 witness. -/
def doubleBreakSystem : QualityControlSystem :=
  QualityControlSystem.mk (fun q => if q = "m" then some doubleBreakSensor else none) []

/-- A molded chocolate that already carries a stains defect before the
inspection, for the C6 witness. -/
def stainedMolded : Chocolate :=
  Chocolate.mk "B6" 0 ChocolateVariant.molded "heart" [DefectType.stains]
    QualityStatus.pending

/-- Witness for C6 at a concrete input: the appended record keeps both
within-call breakage reports and omits the previously accumulated stains
defect. -/
theorem inspect_record_contents_witness :
    doubleBreakSystem.sensors "m" = some doubleBreakSensor ∧
    stainedMolded.defects = [DefectType.stains] ∧
    ((inspect_chocolate doubleBreakSystem stainedMolded "m" 7).2.2).results =
      [{ batch_id := "B6", date := 7, process := "m",
         defects := ["breakage", "breakage"], result := "rejected",
         chocolate_type := "MoldedChocolate" }] := by
  refine ⟨rfl, rfl, ?_⟩
  have h := inspect_record_contents doubleBreakSystem stainedMolded "m" 7
    doubleBreakSensor rfl
  rw [h.2]
  rfl

/-- C9: the defect-list getter hands out a fresh copy: the copied list has
the same contents as the internal one, and writing any value whatsoever to
the returned list object changes neither the internal defect list nor the
status any later `evaluate_quality` computes. -/
theorem defectsGetter_snapshot (h : Heap) (c : ChocolateRef) (v : List DefectType)
    (hw : c.wf h) :
    ((defectsGetter h c).2).read (defectsGetter h c).1 = h.read c.defectsAddr ∧
    (Heap.write (defectsGetter h c).2 (defectsGetter h c).1 v).read c.defectsAddr =
      h.read c.defectsAddr ∧
    evaluateRef (Heap.write (defectsGetter h c).2 (defectsGetter h c).1 v) c =
      evaluateRef h c := by
  have hne : c.defectsAddr ≠ h.next := Nat.ne_of_lt hw
  refine ⟨?_, ?_, ?_⟩ <;>
    simp [defectsGetter, Heap.alloc, Heap.read, Heap.write, evaluateRef, listCopy_eq,
      hne]

/-- Witness for C9 at a concrete input: copying out the stains list at
address 0 of a one-cell heap and overwriting the copy with breakage leaves
the internal list and the evaluation unchanged. -/
theorem defectsGetter_snapshot_witness :
    (ChocolateRef.mk "B8" 0 ChocolateVariant.molded "heart" 0
        QualityStatus.pending).wf (Heap.mk (fun _ => [DefectType.stains]) 1) ∧
    ((defectsGetter (Heap.mk (fun _ => [DefectType.stains]) 1)
        (ChocolateRef.mk "B8" 0 ChocolateVariant.molded "heart" 0
          QualityStatus.pending)).2).read
      (defectsGetter (Heap.mk (fun _ => [DefectType.stains]) 1)
        (ChocolateRef.mk "B8" 0 ChocolateVariant.molded "heart" 0
          QualityStatus.pending)).1 = [DefectType.stains] ∧
    (Heap.write
        (defectsGetter (Heap.mk (fun _ => [DefectType.stains]) 1)
          (ChocolateRef.mk "B8" 0 ChocolateVariant.molded "heart" 0
            QualityStatus.pending)).2
        (defectsGetter (Heap.mk (fun _ => [DefectType.stains]) 1)
          (ChocolateRef.mk "B8" 0 ChocolateVariant.molded "heart" 0
            QualityStatus.pending)).1
        [DefectType.breakage]).read 0 = [DefectType.stains] ∧
    evaluateRef
        (Heap.write
          (defectsGetter (Heap.mk (fun _ => [DefectType.stains]) 1)
            (ChocolateRef.mk "B8" 0 ChocolateVariant.molded "heart" 0
              QualityStatus.pending)).2
          (defectsGetter (Heap.mk (fun _ => [DefectType.stains]) 1)
            (ChocolateRef.mk "B8" 0 ChocolateVariant.molded "heart" 0
              QualityStatus.pending)).1
          [DefectType.breakage])
        (ChocolateRef.mk "B8" 0 ChocolateVariant.molded "heart" 0
          QualityStatus.pending) = QualityStatus.approved := by
  have h := defectsGetter_snapshot (Heap.mk (fun _ => [DefectType.stains]) 1)
    (ChocolateRef.mk "B8" 0 ChocolateVariant.molded "heart" 0 QualityStatus.pending)
    [DefectType.breakage] (Nat.zero_lt_one)
  exact ⟨Nat.zero_lt_one, h.1, h.2.1, h.2.2.trans rfl⟩

/-- Fixed entropy for the visual sensor, for the C10 theorems. -/
def rZero : RandomState := RandomState.mk 0 (fun _ => 0) 0 (fun _ => 0)

/-- A base-class chocolate that acquired a stains defect before inspection,
for the C10 counterexample. -/
def baseDefective : Chocolate :=
  add_defect (Chocolate.mk "B7" 0 ChocolateVariant.base "" [] QualityStatus.pending)
    DefectType.stains

/-- A control system with a visual sensor registered for process "m", for
the C10 theorems. -/
def visualSystem : QualityControlSystem :=
  register_sensor (QualityControlSystem.mk (fun _ => none) []) "m"
    (VisualSensor.detect_defects rZero)

/-- Counterexample to C10 as stated: on a base chocolate carrying a stains
defect, the visual sensor does return the empty list, yet inspection yields
rejected, not approved. -/
theorem visual_base_approved_counterexample :
    baseDefective.variant = ChocolateVariant.base ∧
    VisualSensor.detect_defects rZero baseDefective = [] ∧
    (inspect_chocolate visualSystem baseDefective "m" 0).1 =
      Except.ok QualityStatus.rejected ∧
    Except.ok QualityStatus.rejected ≠
      (Except.ok QualityStatus.approved : Except String QualityStatus) := by
  refine ⟨rfl, rfl, rfl, ?_⟩
  intro hcon
  exact absurd (Except.ok.inj hcon) (by decide)

/-- C10 (amended): on any product that is neither molded nor packaged, the
visual sensor returns the empty list whatever defects the product carries,
and inspecting it through the visual sensor leaves its defect list
unchanged and yields approved exactly when that defect list is empty,
rejected otherwise. -/
theorem visual_base_inspection (r : RandomState) (sys : QualityControlSystem)
    (c : Chocolate) (p : String) (now : Nat)
    (hv : c.variant = ChocolateVariant.base)
    (hs : sys.sensors p = some (VisualSensor.detect_defects r)) :
    VisualSensor.detect_defects r c = [] ∧
    ((inspect_chocolate sys c p now).2.1).defects = c.defects ∧
    (inspect_chocolate sys c p now).1 =
      Except.ok (if c.defects = [] then QualityStatus.approved
        else QualityStatus.rejected) := by
  have hdet : VisualSensor.detect_defects r c = [] := by
    simp [VisualSensor.detect_defects, hv]
  refine ⟨hdet, ?_, ?_⟩ <;>
    simp [inspect_chocolate, hs, hdet, applyDefects, evaluate_quality, statusFor, hv]

/-- Witness for C10 (amended) at a concrete input: a fresh defect-free base
chocolate inspected through the visual sensor comes back approved with its
defect list still empty. -/
theorem visual_base_inspection_witness :
    (Chocolate.mk "B9" 0 ChocolateVariant.base "" [] QualityStatus.pending).variant =
      ChocolateVariant.base ∧
    visualSystem.sensors "m" = some (VisualSensor.detect_defects rZero) ∧
    VisualSensor.detect_defects rZero
      (Chocolate.mk "B9" 0 ChocolateVariant.base "" [] QualityStatus.pending) = [] ∧
    ((inspect_chocolate visualSystem
        (Chocolate.mk "B9" 0 ChocolateVariant.base "" [] QualityStatus.pending)
        "m" 0).2.1).defects = [] ∧
    (inspect_chocolate visualSystem
        (Chocolate.mk "B9" 0 ChocolateVariant.base "" [] QualityStatus.pending)
        "m" 0).1 = Except.ok QualityStatus.approved := by
  have h := visual_base_inspection rZero visualSystem
    (Chocolate.mk "B9" 0 ChocolateVariant.base "" [] QualityStatus.pending) "m" 0
    rfl rfl
  exact ⟨rfl, rfl, h.1, h.2.1, h.2.2.trans (by rfl)⟩

end QualitySystem
